import Mathlib

/-!
Shallow embedding of the ghquick repository-operations orchestrator
(internal/git/operations.go) and proofs about its external-command
workflow.  Each Go method becomes a Lean function over an explicit
`World` (the modelled filesystem flags, environment variable, and an
oracle assigning an outcome to every external command invocation);
every function additionally returns the ordered trace of external
effects it performed (commands run, lock files removed), so that
sequencing and frame properties can be stated.
-/

namespace Ghquick

/-- Outcome of one external command invocation, as observed through the
Go exec API: whether the process exited successfully, the captured
standard output (`cmd.Output`), the captured standard error, the
combined output stream (`cmd.CombinedOutput`), and the message of the
Go error value produced on failure (e.g. "exit status 1"). -/
structure CmdOutcome where
  exitOk : Bool
  stdout : String
  stderrText : String
  combined : String
  errMsg : String
deriving Repr, DecidableEq

/-- The orchestrator's fixed context (struct `Operations`,
operations.go:13-16); the logger only prints and is not modelled. -/
structure Operations where
  workingDir : String
deriving Repr, DecidableEq

/-- The modelled external world: filesystem flags for the repository
metadata directory and the two lock marker files, whether removing each
lock file would fail, the message of such a removal failure, the value
of the GITHUB_USERNAME environment variable, and an oracle `exec`
assigning an outcome to each external command (name followed by its
arguments).  The oracle is a fixed function: within every single
operation of the orchestrator no two invocations share an argument
list, so a stateless oracle loses no generality there; the one
cross-command effect the claims need (a successful `init` creating the
metadata directory) is applied to the flags by `applyEffect`. -/
structure World where
  gitDirExists : Bool
  indexLockExists : Bool
  headLockExists : Bool
  removeIndexLockFails : Bool
  removeHeadLockFails : Bool
  removeErrMsg : String
  ghUsername : String
  exec : List String → CmdOutcome

/-- One observable external effect, in the order performed. -/
inductive Event where
  | removedLock (path : String)
  | ran (name : String) (args : List String)
deriving Repr, DecidableEq

/-- Errors produced by the orchestrator, mirroring the Go error values
and their `%w` wrapping structure. -/
inductive GitError where
  | removeLockFailed (path : String) (errMsg : String)
  | cmdFailed (errMsg : String) (combined : String)
  | runFailed (context : String) (errMsg : String)
  | outputFailed (context : String) (errMsg : String) (stderrText : String)
  | noChanges
  | wrapped (context : String) (err : GitError)
deriving Repr, DecidableEq

/-- Result of one orchestrator operation: the returned value or error,
the world after the operation, and the trace of external effects. -/
structure OpResult (α : Type) where
  result : Except GitError α
  world : World
  trace : List Event

/-- Model of `filepath.Join` for the paths the orchestrator builds. -/
def joinPath (a b : String) : String := a ++ "/" ++ b

/-- Path of the first lock marker file (operations.go:27). -/
def indexLockPath (o : Operations) : String :=
  joinPath (joinPath o.workingDir ".git") "index.lock"

/-- Path of the second lock marker file (operations.go:28). -/
def headLockPath (o : Operations) : String :=
  joinPath (joinPath o.workingDir ".git") "HEAD.lock"

/-- The commands actually run, in order, extracted from a trace. -/
def ranCmds (tr : List Event) : List (List String) :=
  tr.filterMap fun e =>
    match e with
    | .ran name args => some (name :: args)
    | _ => none

/-- The lock-file paths removed, in order, extracted from a trace. -/
def removedPaths (tr : List Event) : List String :=
  tr.filterMap fun e =>
    match e with
    | .removedLock p => some p
    | _ => none

/-- Whether the stale-lock cleanup of `cleanupLocks` succeeds on `w`:
every lock file that exists can be removed. -/
def cleanupOk (w : World) : Bool :=
  (!w.indexLockExists || !w.removeIndexLockFails) &&
    (!w.headLockExists || !w.removeHeadLockFails)

/-- The world with both lock marker files gone. -/
def clearLocks (w : World) : World :=
  { w with indexLockExists := false, headLockExists := false }

/-- The removal events a successful cleanup emits on `w`. -/
def lockEvents (o : Operations) (w : World) : List Event :=
  (if w.indexLockExists then [Event.removedLock (indexLockPath o)] else []) ++
    (if w.headLockExists then [Event.removedLock (headLockPath o)] else [])

/-- Embedding of `cleanupLocks` (operations.go:25-42): for each of the
two lock marker files in order, if it exists, remove it; a failed
removal aborts with a lock-cleanup error. -/
def cleanupLocks (o : Operations) (w : World) : OpResult Unit :=
  if w.indexLockExists then
    if w.removeIndexLockFails then
      ⟨.error (.removeLockFailed (indexLockPath o) w.removeErrMsg), w, []⟩
    else
      let w1 : World := { w with indexLockExists := false }
      if w1.headLockExists then
        if w1.removeHeadLockFails then
          ⟨.error (.removeLockFailed (headLockPath o) w1.removeErrMsg), w1,
            [.removedLock (indexLockPath o)]⟩
        else
          ⟨.ok (), { w1 with headLockExists := false },
            [.removedLock (indexLockPath o), .removedLock (headLockPath o)]⟩
      else ⟨.ok (), w1, [.removedLock (indexLockPath o)]⟩
  else
    if w.headLockExists then
      if w.removeHeadLockFails then
        ⟨.error (.removeLockFailed (headLockPath o) w.removeErrMsg), w, []⟩
      else ⟨.ok (), { w with headLockExists := false }, [.removedLock (headLockPath o)]⟩
    else ⟨.ok (), w, []⟩

/-- Modelled from the spec: the one effect of an external command on the
modelled filesystem flags that the claims depend on — a successful
`init` invocation creates the repository metadata directory (§4.1
EnsureSetup: "If no local repository metadata exists, initializes
one").  Every other command leaves the flags unchanged. -/
def applyEffect (w : World) (name : String) (args : List String)
    (out : CmdOutcome) : World :=
  if name = "git" && args == ["init"] && out.exitOk then
    { w with gitDirExists := true }
  else w

/-- Embedding of `runCommand` (operations.go:44-60): for a git command,
first clean up stale locks (aborting if that fails); then run the
command via `CombinedOutput`, and on failure return an error carrying
the underlying error message and the combined output. -/
def runCommand (o : Operations) (w : World) (name : String)
    (args : List String) : OpResult Unit :=
  if name = "git" then
    let c := cleanupLocks o w
    match c.result with
    | .error e => ⟨.error e, c.world, c.trace⟩
    | .ok _ =>
      let out := c.world.exec (name :: args)
      let w2 := applyEffect c.world name args out
      if out.exitOk then ⟨.ok (), w2, c.trace ++ [.ran name args]⟩
      else
        ⟨.error (.cmdFailed out.errMsg out.combined), w2,
          c.trace ++ [.ran name args]⟩
  else
    let out := w.exec (name :: args)
    let w2 := applyEffect w name args out
    if out.exitOk then ⟨.ok (), w2, [.ran name args]⟩
    else ⟨.error (.cmdFailed out.errMsg out.combined), w2, [.ran name args]⟩

/-- Embedding of `configureGitUser` (operations.go:62-72): runs
`git config --global user.name <GITHUB_USERNAME>` directly through
`cmd.Run` — no lock cleanup, and no output captured into the error. -/
def configureGitUser (o : Operations) (w : World) : OpResult Unit :=
  let args := ["config", "--global", "user.name", w.ghUsername]
  let out := w.exec ("git" :: args)
  if out.exitOk then ⟨.ok (), w, [.ran "git" args]⟩
  else
    ⟨.error (.runFailed "failed to set git user.name" out.errMsg), w,
      [.ran "git" args]⟩

/-- The remote URL built at operations.go:99. -/
def remoteURL (user repo : String) : String :=
  "https://github.com/" ++ user ++ "/" ++ repo ++ ".git"

/-- Embedding of `EnsureGitSetup` (operations.go:74-111): initialize the
repository if the metadata directory is absent; configure the git user;
probe `remote get-url origin` directly through `cmd.Run`, and if the
probe fails, add the remote `origin` with the constructed URL. -/
def EnsureGitSetup (o : Operations) (w : World) (repoName : String) :
    OpResult Unit :=
  let step1 : OpResult Unit :=
    if w.gitDirExists then ⟨.ok (), w, []⟩
    else
      let r := runCommand o w "git" ["init"]
      match r.result with
      | .error e =>
        ⟨.error (.wrapped "failed to initialize git repository" e), r.world,
          r.trace⟩
      | .ok _ => ⟨.ok (), r.world, r.trace⟩
  match step1.result with
  | .error e => ⟨.error e, step1.world, step1.trace⟩
  | .ok _ =>
    let rc := configureGitUser o step1.world
    match rc.result with
    | .error e => ⟨.error e, rc.world, step1.trace ++ rc.trace⟩
    | .ok _ =>
      let probeArgs := ["remote", "get-url", "origin"]
      let probe := rc.world.exec ("git" :: probeArgs)
      let tr3 := step1.trace ++ rc.trace ++ [Event.ran "git" probeArgs]
      if probe.exitOk then ⟨.ok (), rc.world, tr3⟩
      else
        let url := remoteURL rc.world.ghUsername repoName
        let ra := runCommand o rc.world "git" ["remote", "add", "origin", url]
        match ra.result with
        | .error e =>
          ⟨.error (.wrapped "failed to add remote origin" e), ra.world,
            tr3 ++ ra.trace⟩
        | .ok _ => ⟨.ok (), ra.world, tr3 ++ ra.trace⟩

/-- Embedding of `GetDiff` (operations.go:113-137): run
`git diff --cached` directly through `cmd.Output`; only if that command
errors, run `git diff`; if that also errors, fail, wrapping the second
command's error (no combined output in the error value). -/
def GetDiff (o : Operations) (w : World) : OpResult String :=
  let dc := w.exec ["git", "diff", "--cached"]
  if dc.exitOk then ⟨.ok dc.stdout, w, [.ran "git" ["diff", "--cached"]]⟩
  else
    let d := w.exec ["git", "diff"]
    let tr := [Event.ran "git" ["diff", "--cached"], Event.ran "git" ["diff"]]
    if d.exitOk then ⟨.ok d.stdout, w, tr⟩
    else ⟨.error (.outputFailed "failed to get diff" d.errMsg d.stderrText), w, tr⟩

/-- Embedding of `StageAll` (operations.go:139-170): `git add -A`
through `runCommand`; on its failure `git add <workingDir>`; on success
of either, query `git status --porcelain` directly through
`cmd.Output`; a failed query is an error, an empty query output is the
"no changes to commit" error, and a non-empty output is success. -/
def StageAll (o : Operations) (w : World) : OpResult Unit :=
  let addStep : OpResult Unit :=
    let r1 := runCommand o w "git" ["add", "-A"]
    match r1.result with
    | .ok _ => ⟨.ok (), r1.world, r1.trace⟩
    | .error _ =>
      let r2 := runCommand o r1.world "git" ["add", o.workingDir]
      match r2.result with
      | .ok _ => ⟨.ok (), r2.world, r1.trace ++ r2.trace⟩
      | .error e =>
        ⟨.error (.wrapped "failed to stage files" e), r2.world,
          r1.trace ++ r2.trace⟩
  match addStep.result with
  | .error e => ⟨.error e, addStep.world, addStep.trace⟩
  | .ok _ =>
    let st := addStep.world.exec ["git", "status", "--porcelain"]
    let tr := addStep.trace ++ [Event.ran "git" ["status", "--porcelain"]]
    if st.exitOk then
      if st.stdout = "" then ⟨.error .noChanges, addStep.world, tr⟩
      else ⟨.ok (), addStep.world, tr⟩
    else
      ⟨.error (.outputFailed "failed to check git status" st.errMsg st.stderrText),
        addStep.world, tr⟩

/-- Embedding of `Commit` (operations.go:172-180): a single
`git commit -m <message>` through `runCommand`. -/
def Commit (o : Operations) (w : World) (message : String) : OpResult Unit :=
  let r := runCommand o w "git" ["commit", "-m", message]
  match r.result with
  | .ok _ => ⟨.ok (), r.world, r.trace⟩
  | .error e => ⟨.error (.wrapped "failed to commit" e), r.world, r.trace⟩

/-- Embedding of `Push` (operations.go:182-197): default empty remote to
"origin" and empty branch to "main", then a single
`git push -u <remote> <branch>` through `runCommand`. -/
def Push (o : Operations) (w : World) (remote branch : String) : OpResult Unit :=
  let remote1 := if remote = "" then "origin" else remote
  let branch1 := if branch = "" then "main" else branch
  let r := runCommand o w "git" ["push", "-u", remote1, branch1]
  match r.result with
  | .ok _ => ⟨.ok (), r.world, r.trace⟩
  | .error e => ⟨.error (.wrapped "failed to push" e), r.world, r.trace⟩

/-- Whether an error is (or wraps) a lock-cleanup failure. -/
def GitError.isLockCleanup : GitError → Bool
  | .removeLockFailed _ _ => true
  | .wrapped _ e => e.isLockCleanup
  | _ => false

/-- The captured command outputs held inside an error value: the
combined output of a `runCommand` failure, or the captured standard
error of a `cmd.Output` failure; errors from `cmd.Run` hold none. -/
def GitError.capturedOutputs : GitError → List String
  | .cmdFailed _ out => [out]
  | .outputFailed _ _ serr => [serr]
  | .wrapped _ e => e.capturedOutputs
  | _ => []

/-- Whether the error value carries the string `s` as a captured command
output. -/
def GitError.includesOutput (e : GitError) (s : String) : Bool :=
  e.capturedOutputs.contains s

/-- Whether a result is an error. -/
def exceptIsError {α : Type} : Except GitError α → Bool
  | .error _ => true
  | .ok _ => false

/-- Whether a result is (or wraps) a lock-cleanup failure. -/
def resultIsLockCleanup {α : Type} : Except GitError α → Bool
  | .error e => e.isLockCleanup
  | .ok _ => false

/-- Modelled from the spec: the external tool's observable diff behavior
inside a valid repository — both diff queries succeed (§4.1 GetChanges:
"Returns empty text if nothing differs (not an error)", and a DiffError
arises only when an attempt "errors at the command level", so an empty
diff is a successful, empty-output invocation).  The staged-diff command
prints the staged diff text and the unstaged-diff command prints the
unstaged diff text. -/
def diffExec (staged unstaged : String) : List String → CmdOutcome :=
  fun c =>
    if c == ["git", "diff", "--cached"] then ⟨true, staged, "", staged, ""⟩
    else if c == ["git", "diff"] then ⟨true, unstaged, "", unstaged, ""⟩
    else ⟨true, "", "", "", ""⟩

/-- A quiescent repository world whose diff commands behave per
`diffExec` for the given staged and unstaged diff texts. -/
def diffWorld (staged unstaged : String) : World :=
  { gitDirExists := true, indexLockExists := false, headLockExists := false,
    removeIndexLockFails := false, removeHeadLockFails := false,
    removeErrMsg := "", ghUsername := "alice", exec := diffExec staged unstaged }

/-- The context used for concrete evaluations. -/
def op0 : Operations := ⟨"/repo"⟩

/-- An oracle under which every command succeeds with empty output,
except that the status query reports a staged file and the remote probe
fails (no remote named origin yet). -/
def allOkExec : List String → CmdOutcome := fun c =>
  if c == ["git", "status", "--porcelain"] then
    ⟨true, " M file.txt", "", " M file.txt", ""⟩
  else if c == ["git", "remote", "get-url", "origin"] then
    ⟨false, "", "", "", "exit status 2"⟩
  else ⟨true, "", "", "", ""⟩

/-- A healthy repository world driven by `allOkExec`. -/
def wAllOk : World :=
  { gitDirExists := true, indexLockExists := false, headLockExists := false,
    removeIndexLockFails := false, removeHeadLockFails := false,
    removeErrMsg := "remove failed", ghUsername := "alice", exec := allOkExec }

/-- The same world before the repository metadata directory exists. -/
def wFresh : World := { wAllOk with gitDirExists := false }

/-- The same world with the GITHUB_USERNAME variable unset (empty). -/
def wEmptyUser : World := { wAllOk with ghUsername := "" }

/-- A world with a stale index lock whose removal fails. -/
def wLocked : World :=
  { wAllOk with indexLockExists := true, removeIndexLockFails := true }

/-- An oracle under which the user-name configuration command fails with
combined output "BOOM", and everything else succeeds. -/
def cfgFailExec : List String → CmdOutcome := fun c =>
  if c == ["git", "config", "--global", "user.name", "alice"] then
    ⟨false, "OUT", "ERR", "BOOM", "exit status 1"⟩
  else ⟨true, "", "", "", ""⟩

/-- A world whose user-name configuration command fails. -/
def cfgFailWorld : World := { wAllOk with exec := cfgFailExec }

@[simp] lemma clearLocks_exec (w : World) : (clearLocks w).exec = w.exec := rfl

@[simp] lemma clearLocks_ghUsername (w : World) :
    (clearLocks w).ghUsername = w.ghUsername := rfl

@[simp] lemma clearLocks_gitDirExists (w : World) :
    (clearLocks w).gitDirExists = w.gitDirExists := rfl

@[simp] lemma clearLocks_indexLockExists (w : World) :
    (clearLocks w).indexLockExists = false := rfl

@[simp] lemma clearLocks_headLockExists (w : World) :
    (clearLocks w).headLockExists = false := rfl

@[simp] lemma applyEffect_exec (w : World) (n : String) (a : List String)
    (out : CmdOutcome) : (applyEffect w n a out).exec = w.exec := by
  unfold applyEffect; split <;> rfl

@[simp] lemma applyEffect_ghUsername (w : World) (n : String) (a : List String)
    (out : CmdOutcome) : (applyEffect w n a out).ghUsername = w.ghUsername := by
  unfold applyEffect; split <;> rfl

@[simp] lemma applyEffect_indexLockExists (w : World) (n : String)
    (a : List String) (out : CmdOutcome) :
    (applyEffect w n a out).indexLockExists = w.indexLockExists := by
  unfold applyEffect; split <;> rfl

@[simp] lemma applyEffect_headLockExists (w : World) (n : String)
    (a : List String) (out : CmdOutcome) :
    (applyEffect w n a out).headLockExists = w.headLockExists := by
  unfold applyEffect; split <;> rfl

@[simp] lemma applyEffect_removeIndexLockFails (w : World) (n : String)
    (a : List String) (out : CmdOutcome) :
    (applyEffect w n a out).removeIndexLockFails = w.removeIndexLockFails := by
  unfold applyEffect; split <;> rfl

@[simp] lemma applyEffect_removeHeadLockFails (w : World) (n : String)
    (a : List String) (out : CmdOutcome) :
    (applyEffect w n a out).removeHeadLockFails = w.removeHeadLockFails := by
  unfold applyEffect; split <;> rfl

@[simp] lemma applyEffect_init_ok (w : World) (out : CmdOutcome)
    (h : out.exitOk = true) :
    applyEffect w "git" ["init"] out = { w with gitDirExists := true } := by
  simp [applyEffect, h]

@[simp] lemma applyEffect_init_fail (w : World) (out : CmdOutcome)
    (h : out.exitOk = false) :
    applyEffect w "git" ["init"] out = w := by
  simp [applyEffect, h]

@[simp] lemma applyEffect_not_init (w : World) (n a : String)
    (rest : List String) (out : CmdOutcome) (h : (a == "init") = false) :
    applyEffect w n (a :: rest) out = w := by
  unfold applyEffect
  rw [show ((a :: rest) == ["init"]) = ((a == "init") && (rest == [])) from rfl]
  simp [h]

@[simp] lemma cleanupOk_mk (gd il hl rif2 rhf2 : Bool) (rem user : String)
    (ex : List String → CmdOutcome) :
    cleanupOk ⟨gd, il, hl, rif2, rhf2, rem, user, ex⟩ =
      ((!il || !rif2) && (!hl || !rhf2)) := rfl

@[simp] lemma lockEvents_mk (o : Operations) (gd il hl rif2 rhf2 : Bool)
    (rem user : String) (ex : List String → CmdOutcome) :
    lockEvents o ⟨gd, il, hl, rif2, rhf2, rem, user, ex⟩ =
      ((if il then [Event.removedLock (indexLockPath o)] else []) ++
        (if hl then [Event.removedLock (headLockPath o)] else [])) := rfl

@[simp] lemma cleanupOk_clearLocks (w : World) : cleanupOk (clearLocks w) = true := by
  simp [cleanupOk]

@[simp] lemma cleanupOk_applyEffect (w : World) (n : String) (a : List String)
    (out : CmdOutcome) : cleanupOk (applyEffect w n a out) = cleanupOk w := by
  simp [cleanupOk]

@[simp] lemma lockEvents_clearLocks (o : Operations) (w : World) :
    lockEvents o (clearLocks w) = [] := by
  simp [lockEvents]

@[simp] lemma lockEvents_applyEffect (o : Operations) (w : World) (n : String)
    (a : List String) (out : CmdOutcome) :
    lockEvents o (applyEffect w n a out) = lockEvents o w := by
  simp [lockEvents]

@[simp] lemma ranCmds_nil : ranCmds [] = [] := rfl

@[simp] lemma ranCmds_cons_ran (n : String) (a : List String) (tr : List Event) :
    ranCmds (Event.ran n a :: tr) = (n :: a) :: ranCmds tr := rfl

@[simp] lemma ranCmds_cons_removed (p : String) (tr : List Event) :
    ranCmds (Event.removedLock p :: tr) = ranCmds tr := rfl

@[simp] lemma ranCmds_append (a b : List Event) :
    ranCmds (a ++ b) = ranCmds a ++ ranCmds b := by
  simp [ranCmds]

@[simp] lemma removedPaths_nil : removedPaths [] = [] := rfl

@[simp] lemma removedPaths_cons_ran (n : String) (a : List String) (tr : List Event) :
    removedPaths (Event.ran n a :: tr) = removedPaths tr := rfl

@[simp] lemma removedPaths_cons_removed (p : String) (tr : List Event) :
    removedPaths (Event.removedLock p :: tr) = p :: removedPaths tr := rfl

@[simp] lemma removedPaths_append (a b : List Event) :
    removedPaths (a ++ b) = removedPaths a ++ removedPaths b := by
  simp [removedPaths]

@[simp] lemma ranCmds_lockEvents (o : Operations) (w : World) :
    ranCmds (lockEvents o w) = [] := by
  cases hi : w.indexLockExists <;> cases hh : w.headLockExists <;>
    simp [lockEvents, hi, hh]

lemma cleanupLocks_ok (o : Operations) (w : World) (h : cleanupOk w = true) :
    cleanupLocks o w = ⟨.ok (), clearLocks w, lockEvents o w⟩ := by
  cases w with
  | mk gd il hl rif2 rhf2 rem user ex =>
    cases il <;> cases hl <;> cases rif2 <;> cases rhf2 <;>
      simp_all [cleanupLocks, cleanupOk, clearLocks, lockEvents]

lemma cleanupLocks_fail (o : Operations) (w : World) (h : cleanupOk w = false) :
    resultIsLockCleanup (cleanupLocks o w).result = true ∧
    ranCmds (cleanupLocks o w).trace = [] ∧
    cleanupOk (cleanupLocks o w).world = false ∧
    (cleanupLocks o w).world.exec = w.exec := by
  cases w with
  | mk gd il hl rif2 rhf2 rem user ex =>
    cases il <;> cases hl <;> cases rif2 <;> cases rhf2 <;>
      simp_all [cleanupLocks, cleanupOk, resultIsLockCleanup,
        GitError.isLockCleanup]

lemma cleanupLocks_removedPaths (o : Operations) (w : World) :
    ((removedPaths (cleanupLocks o w).trace).all
      (fun p => p == indexLockPath o || p == headLockPath o)) = true := by
  cases w with
  | mk gd il hl rif2 rhf2 rem user ex =>
    cases il <;> cases hl <;> cases rif2 <;> cases rhf2 <;>
      simp_all [cleanupLocks]

lemma runCommand_git (o : Operations) (w : World) (args : List String)
    (h : cleanupOk w = true) :
    runCommand o w "git" args =
      ⟨(if (w.exec ("git" :: args)).exitOk then Except.ok ()
        else .error (.cmdFailed (w.exec ("git" :: args)).errMsg
          (w.exec ("git" :: args)).combined)),
        applyEffect (clearLocks w) "git" args (w.exec ("git" :: args)),
        lockEvents o w ++ [.ran "git" args]⟩ := by
  rw [runCommand]
  simp only [if_pos rfl]
  rw [cleanupLocks_ok o w h]
  cases hx : (w.exec ("git" :: args)).exitOk <;> simp [hx]

lemma resultIsLockCleanup_elim {α : Type} {r : Except GitError α}
    (h : resultIsLockCleanup r = true) :
    ∃ e, r = .error e ∧ e.isLockCleanup = true := by
  cases r with
  | ok v => simp [resultIsLockCleanup] at h
  | error e => exact ⟨e, rfl, h⟩

lemma runCommand_git_lockfail (o : Operations) (w : World) (args : List String)
    (h : cleanupOk w = false) :
    resultIsLockCleanup (runCommand o w "git" args).result = true ∧
    ranCmds (runCommand o w "git" args).trace = [] ∧
    (runCommand o w "git" args).world = (cleanupLocks o w).world := by
  obtain ⟨h1, h2, _, _⟩ := cleanupLocks_fail o w h
  obtain ⟨e, he, hl⟩ := resultIsLockCleanup_elim h1
  rw [runCommand]
  simp [he, h2, resultIsLockCleanup, hl]

lemma runCommand_removedPaths (o : Operations) (w : World) (name : String)
    (args : List String) :
    ((removedPaths (runCommand o w name args).trace).all
      (fun p => p == indexLockPath o || p == headLockPath o)) = true := by
  rw [runCommand]
  by_cases hg : name = "git"
  · simp only [hg, if_pos rfl]
    have hcp := cleanupLocks_removedPaths o w
    cases hr : (cleanupLocks o w).result with
    | error e => simpa [hr] using hcp
    | ok v =>
      cases hx : ((cleanupLocks o w).world.exec (name :: args)).exitOk <;>
        simp_all [hg]
  · cases hx : (w.exec (name :: args)).exitOk <;> simp [hg, hx]

/-- Claim C1 (code_bug evidence): at every repository state with an
empty staged diff — where the staged-diff command exits successfully
with empty output, per `diffWorld` — `GetDiff` returns the empty staged
output, never consulting the unstaged diff text, because its fallback
triggers only when the staged-diff command errors.  The claim (and the
code's own comment "If nothing is staged, get unstaged changes") says
the unstaged diff text would be returned. -/
theorem getDiff_empty_staged_returns_empty_text (o : Operations)
    (unstaged : String) :
    (GetDiff o (diffWorld "" unstaged)).result = .ok "" := by
  rfl

/-- Claim C2, counterexample: `configureGitUser` invokes its external
command through `cmd.Run`, so when that command fails with combined
output "BOOM", the returned error value holds only the context string
and the underlying error message — the combined output "BOOM" is not
captured anywhere in the error. -/
theorem configureGitUser_failure_omits_output :
    (configureGitUser op0 cfgFailWorld).result =
      .error (.runFailed "failed to set git user.name" "exit status 1") ∧
    GitError.includesOutput
      (.runFailed "failed to set git user.name" "exit status 1") "BOOM" = false := by
  constructor
  · rfl
  · rfl

/-- Claim C2 (amended): every failing external command invoked through
`runCommand` — the path used by init, remote add, add, commit and
push — has its combined output captured inside the returned error
value. -/
theorem runCommand_failure_surfaces_combined_output (o : Operations)
    (w : World) (name : String) (args : List String)
    (hcl : cleanupOk w = true)
    (hf : (w.exec (name :: args)).exitOk = false) :
    (runCommand o w name args).result =
      .error (.cmdFailed (w.exec (name :: args)).errMsg
        (w.exec (name :: args)).combined) ∧
    GitError.includesOutput
      (.cmdFailed (w.exec (name :: args)).errMsg (w.exec (name :: args)).combined)
      ((w.exec (name :: args)).combined) = true := by
  constructor
  · by_cases hg : name = "git"
    · subst hg
      rw [runCommand_git o w args hcl]
      simp [hf]
    · rw [runCommand]
      simp [hg, hf]
  · simp [GitError.includesOutput, GitError.capturedOutputs, List.contains]

/-- Witness for the amended C2 theorem at a concrete world whose
configuration command fails with combined output "BOOM": run through
`runCommand`, the error does capture "BOOM". -/
theorem runCommand_failure_surfaces_combined_output_witness :
    (runCommand op0 cfgFailWorld "git"
      ["config", "--global", "user.name", "alice"]).result =
      .error (.cmdFailed
        (cfgFailWorld.exec ["git", "config", "--global", "user.name", "alice"]).errMsg
        (cfgFailWorld.exec ["git", "config", "--global", "user.name", "alice"]).combined) ∧
    GitError.includesOutput
      (.cmdFailed
        (cfgFailWorld.exec ["git", "config", "--global", "user.name", "alice"]).errMsg
        (cfgFailWorld.exec ["git", "config", "--global", "user.name", "alice"]).combined)
      ((cfgFailWorld.exec ["git", "config", "--global", "user.name", "alice"]).combined) = true :=
  runCommand_failure_surfaces_combined_output op0 cfgFailWorld "git"
    ["config", "--global", "user.name", "alice"] (by decide) (by decide)

/-- Claim C6: `GetDiff` fails exactly when both the staged-diff command
and the unstaged-diff command error at the command level, and on a
repository where nothing differs (both diffs empty, both commands
succeeding) it returns empty text with no error. -/
theorem getDiff_no_changes_and_error_conditions (o : Operations) (w : World) :
    (exceptIsError (GetDiff o w).result = true ↔
      (w.exec ["git", "diff", "--cached"]).exitOk = false ∧
        (w.exec ["git", "diff"]).exitOk = false) ∧
    (GetDiff o (diffWorld "" "")).result = .ok "" := by
  constructor
  · rw [GetDiff]
    cases h1 : (w.exec ["git", "diff", "--cached"]).exitOk <;>
      cases h2 : (w.exec ["git", "diff"]).exitOk <;>
        simp [h1, h2, exceptIsError]
  · rfl

/-- Witness for C6 applied at a concrete quiescent world. -/
theorem getDiff_no_changes_and_error_conditions_witness :
    (GetDiff op0 (diffWorld "" "")).result = .ok "" :=
  (getDiff_no_changes_and_error_conditions op0 (diffWorld "" "")).2

/-- Claim C8: `Push` with empty arguments resolves the remote to
"origin" and the branch to "main", and for every argument pair it
invokes exactly one push command, with upstream tracking, using the
resolved names. -/
theorem push_defaults_origin_main (o : Operations) (w : World)
    (remote branch : String) (hcl : cleanupOk w = true) :
    (Push o w "" "").trace =
      lockEvents o w ++ [.ran "git" ["push", "-u", "origin", "main"]] ∧
    ranCmds (Push o w remote branch).trace =
      [["git", "push", "-u", if remote = "" then "origin" else remote,
        if branch = "" then "main" else branch]] := by
  constructor
  · rw [Push]
    simp only [if_pos rfl]
    rw [runCommand_git o w _ hcl]
    cases hx : (w.exec ["git", "push", "-u", "origin", "main"]).exitOk <;>
      simp [hx]
  · rw [Push]
    rw [runCommand_git o w _ hcl]
    cases hx : (w.exec ["git", "push", "-u",
        if remote = "" then "origin" else remote,
        if branch = "" then "main" else branch]).exitOk <;>
      simp [hx]

/-- Witness for C8 at a concrete healthy world. -/
theorem push_defaults_origin_main_witness :
    (Push op0 wAllOk "" "").trace =
      lockEvents op0 wAllOk ++ [.ran "git" ["push", "-u", "origin", "main"]] ∧
    ranCmds (Push op0 wAllOk "" "").trace =
      [["git", "push", "-u", if "" = "" then "origin" else "",
        if "" = "" then "main" else ""]] :=
  push_defaults_origin_main op0 wAllOk "" "" (by decide)

/-- Claim C3: under a working stale-lock cleanup, once staging has
succeeded (either by `add -A` directly or by the `add <dir>` fallback
after `add -A` failed) and the status query runs successfully,
`StageAll` succeeds exactly when the status output is non-empty; an
empty status output yields the "no changes to commit" error, never
success; and the commands run are `add -A` first, then the fallback
exactly when `add -A` failed, then the status query. -/
theorem stageAll_verifies_nonempty_status (o : Operations) (w : World)
    (hcl : cleanupOk w = true)
    (hadd : (w.exec ["git", "add", "-A"]).exitOk = true ∨
      ((w.exec ["git", "add", "-A"]).exitOk = false ∧
        (w.exec ["git", "add", o.workingDir]).exitOk = true))
    (hst : (w.exec ["git", "status", "--porcelain"]).exitOk = true) :
    ((StageAll o w).result = .ok () ↔
      ¬(w.exec ["git", "status", "--porcelain"]).stdout = "") ∧
    ((w.exec ["git", "status", "--porcelain"]).stdout = "" →
      (StageAll o w).result = .error .noChanges) ∧
    ranCmds (StageAll o w).trace =
      (if (w.exec ["git", "add", "-A"]).exitOk then
        [["git", "add", "-A"], ["git", "status", "--porcelain"]]
       else
        [["git", "add", "-A"], ["git", "add", o.workingDir],
          ["git", "status", "--porcelain"]]) := by
  rcases hadd with hA | ⟨hA, hB⟩
  · by_cases hs : (w.exec ["git", "status", "--porcelain"]).stdout = "" <;>
      simp [StageAll, runCommand_git, hcl, hA, hs, hst]
  · by_cases hs : (w.exec ["git", "status", "--porcelain"]).stdout = "" <;>
      simp [StageAll, runCommand_git, hcl, hA, hB, hs, hst]

/-- Witness for C3: at a healthy concrete world whose status query
reports a staged file, `StageAll` succeeds. -/
theorem stageAll_verifies_nonempty_status_witness :
    (StageAll op0 wAllOk).result = .ok () :=
  ((stageAll_verifies_nonempty_status op0 wAllOk (by decide)
    (Or.inl (by decide)) (by decide)).1).mpr (by decide)

lemma commit_lockfail (o : Operations) (w : World) (m : String)
    (h : cleanupOk w = false) :
    resultIsLockCleanup (Commit o w m).result = true ∧
    ranCmds (Commit o w m).trace = [] := by
  obtain ⟨h1, h2, _⟩ := runCommand_git_lockfail o w ["commit", "-m", m] h
  obtain ⟨e, he, hl⟩ := resultIsLockCleanup_elim h1
  simp [Commit, he, h2, resultIsLockCleanup, GitError.isLockCleanup, hl]

lemma push_lockfail (o : Operations) (w : World) (remote branch : String)
    (h : cleanupOk w = false) :
    resultIsLockCleanup (Push o w remote branch).result = true ∧
    ranCmds (Push o w remote branch).trace = [] := by
  obtain ⟨h1, h2, _⟩ := runCommand_git_lockfail o w
    ["push", "-u", if remote = "" then "origin" else remote,
      if branch = "" then "main" else branch] h
  obtain ⟨e, he, hl⟩ := resultIsLockCleanup_elim h1
  simp [Push, he, h2, resultIsLockCleanup, GitError.isLockCleanup, hl]

lemma stageAll_lockfail (o : Operations) (w : World)
    (h : cleanupOk w = false) :
    resultIsLockCleanup (StageAll o w).result = true ∧
    ranCmds (StageAll o w).trace = [] := by
  obtain ⟨h1, h2, hw⟩ := runCommand_git_lockfail o w ["add", "-A"] h
  obtain ⟨e, he, hl⟩ := resultIsLockCleanup_elim h1
  have hwf : cleanupOk (runCommand o w "git" ["add", "-A"]).world = false := by
    rw [hw]; exact (cleanupLocks_fail o w h).2.2.1
  obtain ⟨h1b, h2b, _⟩ := runCommand_git_lockfail o
    (runCommand o w "git" ["add", "-A"]).world ["add", o.workingDir] hwf
  obtain ⟨e2, he2, hl2⟩ := resultIsLockCleanup_elim h1b
  simp [StageAll, he, he2, h2, h2b, resultIsLockCleanup,
    GitError.isLockCleanup, hl2]

lemma ensureGitSetup_lockfail (o : Operations) (w : World) (repoName : String)
    (h : cleanupOk w = false) (hgd : w.gitDirExists = false) :
    resultIsLockCleanup (EnsureGitSetup o w repoName).result = true ∧
    ranCmds (EnsureGitSetup o w repoName).trace = [] := by
  obtain ⟨h1, h2, _⟩ := runCommand_git_lockfail o w ["init"] h
  obtain ⟨e, he, hl⟩ := resultIsLockCleanup_elim h1
  simp [EnsureGitSetup, hgd, he, h2, resultIsLockCleanup,
    GitError.isLockCleanup, hl]

lemma commit_trace_eq (o : Operations) (w : World) (m : String) :
    (Commit o w m).trace = (runCommand o w "git" ["commit", "-m", m]).trace := by
  rw [Commit]
  cases hr : (runCommand o w "git" ["commit", "-m", m]).result <;> simp [hr]

lemma stageAll_starts_with_add (o : Operations) (w : World)
    (hcl : cleanupOk w = true) :
    ∃ rest, (StageAll o w).trace =
      lockEvents o w ++ Event.ran "git" ["add", "-A"] :: rest := by
  cases hA : (w.exec ["git", "add", "-A"]).exitOk <;>
    cases hB : (w.exec ["git", "add", o.workingDir]).exitOk <;>
      cases hS : (w.exec ["git", "status", "--porcelain"]).exitOk <;>
        by_cases hs : (w.exec ["git", "status", "--porcelain"]).stdout = "" <;>
          first
            | (refine ⟨[Event.ran "git" ["status", "--porcelain"]], ?_⟩
               simp [StageAll, runCommand_git, hcl, hA, hB, hS, hs]
               done)
            | (refine ⟨[Event.ran "git" ["add", o.workingDir],
                  Event.ran "git" ["status", "--porcelain"]], ?_⟩
               simp [StageAll, runCommand_git, hcl, hA, hB, hS, hs]
               done)
            | (refine ⟨[Event.ran "git" ["add", o.workingDir]], ?_⟩
               simp [StageAll, runCommand_git, hcl, hA, hB, hS, hs]
               done)

lemma ensureGitSetup_starts_with_init (o : Operations) (w : World)
    (repoName : String) (hcl : cleanupOk w = true)
    (hgd : w.gitDirExists = false) :
    ∃ rest, (EnsureGitSetup o w repoName).trace =
      lockEvents o w ++ Event.ran "git" ["init"] :: rest := by
  cases hI : (w.exec ["git", "init"]).exitOk <;>
    cases hC : (w.exec ["git", "config", "--global", "user.name",
      w.ghUsername]).exitOk <;>
      cases hP : (w.exec ["git", "remote", "get-url", "origin"]).exitOk <;>
        cases hR : (w.exec ["git", "remote", "add", "origin",
          remoteURL w.ghUsername repoName]).exitOk <;>
          first
            | (refine ⟨[], ?_⟩
               simp [EnsureGitSetup, configureGitUser, runCommand_git,
                 hcl, hgd, hI, hC, hP, hR]
               done)
            | (refine ⟨[Event.ran "git"
                  ["config", "--global", "user.name", w.ghUsername]], ?_⟩
               simp [EnsureGitSetup, configureGitUser, runCommand_git,
                 hcl, hgd, hI, hC, hP, hR]
               done)
            | (refine ⟨[Event.ran "git"
                  ["config", "--global", "user.name", w.ghUsername],
                  Event.ran "git" ["remote", "get-url", "origin"]], ?_⟩
               simp [EnsureGitSetup, configureGitUser, runCommand_git,
                 hcl, hgd, hI, hC, hP, hR]
               done)
            | (refine ⟨[Event.ran "git"
                  ["config", "--global", "user.name", w.ghUsername],
                  Event.ran "git" ["remote", "get-url", "origin"],
                  Event.ran "git" ["remote", "add", "origin",
                    remoteURL w.ghUsername repoName]], ?_⟩
               simp [EnsureGitSetup, configureGitUser, runCommand_git,
                 hcl, hgd, hI, hC, hP, hR]
               done)

/-- Claim C4: before each repository-mutating command (the `init` of
`EnsureGitSetup`, its `remote add`, the `add` commands of `StageAll`,
`Commit`'s commit, `Push`'s push — all issued through `runCommand`) the
orchestrator checks the two lock marker files; if a present lock file
cannot be removed, the operation fails with a lock-cleanup error and
runs no external command at all, and otherwise the trace consists of
the removals of whichever lock files existed, followed by the command,
with both lock flags cleared afterwards. -/
theorem lock_cleanup_precedes_mutating_commands (o : Operations) (w : World)
    (m remote branch repoName : String) (args : List String) :
    (cleanupOk w = false →
      (resultIsLockCleanup (runCommand o w "git" args).result = true ∧
        ranCmds (runCommand o w "git" args).trace = []) ∧
      (resultIsLockCleanup (Commit o w m).result = true ∧
        ranCmds (Commit o w m).trace = []) ∧
      (resultIsLockCleanup (Push o w remote branch).result = true ∧
        ranCmds (Push o w remote branch).trace = []) ∧
      (resultIsLockCleanup (StageAll o w).result = true ∧
        ranCmds (StageAll o w).trace = []) ∧
      (w.gitDirExists = false →
        resultIsLockCleanup (EnsureGitSetup o w repoName).result = true ∧
        ranCmds (EnsureGitSetup o w repoName).trace = [])) ∧
    (cleanupOk w = true →
      (runCommand o w "git" args).trace =
        lockEvents o w ++ [Event.ran "git" args] ∧
      (runCommand o w "git" args).world.indexLockExists = false ∧
      (runCommand o w "git" args).world.headLockExists = false ∧
      (Commit o w m).trace =
        lockEvents o w ++ [Event.ran "git" ["commit", "-m", m]] ∧
      (Commit o w m).world.indexLockExists = false ∧
      (Commit o w m).world.headLockExists = false ∧
      (Push o w remote branch).trace = lockEvents o w ++
        [Event.ran "git" ["push", "-u",
          if remote = "" then "origin" else remote,
          if branch = "" then "main" else branch]] ∧
      (∃ rest, (StageAll o w).trace =
        lockEvents o w ++ Event.ran "git" ["add", "-A"] :: rest) ∧
      (w.gitDirExists = false →
        ∃ rest, (EnsureGitSetup o w repoName).trace =
          lockEvents o w ++ Event.ran "git" ["init"] :: rest)) := by
  constructor
  · intro hcl
    exact ⟨⟨(runCommand_git_lockfail o w args hcl).1,
        (runCommand_git_lockfail o w args hcl).2.1⟩,
      commit_lockfail o w m hcl, push_lockfail o w remote branch hcl,
      stageAll_lockfail o w hcl,
      fun hgd => ensureGitSetup_lockfail o w repoName hcl hgd⟩
  · intro hcl
    refine ⟨?_, ?_, ?_, ?_, ?_, ?_, ?_, stageAll_starts_with_add o w hcl,
      fun hgd => ensureGitSetup_starts_with_init o w repoName hcl hgd⟩
    · rw [runCommand_git o w args hcl]
    · rw [runCommand_git o w args hcl]; simp
    · rw [runCommand_git o w args hcl]; simp
    · cases hx : (w.exec ["git", "commit", "-m", m]).exitOk <;>
        simp [Commit, runCommand_git, hcl, hx]
    · cases hx : (w.exec ["git", "commit", "-m", m]).exitOk <;>
        simp [Commit, runCommand_git, hcl, hx]
    · cases hx : (w.exec ["git", "commit", "-m", m]).exitOk <;>
        simp [Commit, runCommand_git, hcl, hx]
    · cases hx : (w.exec ["git", "push", "-u",
        if remote = "" then "origin" else remote,
        if branch = "" then "main" else branch]).exitOk <;>
        simp [Push, runCommand_git, hcl, hx]

/-- Witness for C4: at a concrete world holding a stale index lock whose
removal fails, `Commit` fails with a lock-cleanup error and runs no
external command. -/
theorem lock_cleanup_precedes_mutating_commands_witness :
    resultIsLockCleanup (Commit op0 wLocked "msg").result = true ∧
    ranCmds (Commit op0 wLocked "msg").trace = [] :=
  ((lock_cleanup_precedes_mutating_commands op0 wLocked "msg" "" "" "demo"
    ["commit", "-m", "msg"]).1 (by decide)).2.1

/-- Claim C9: `Commit` issues no external command other than the single
commit invocation (or none at all when lock cleanup fails), and the
only filesystem entries it ever removes are the two lock marker files —
in particular a failed commit performs no rollback, leaving the staged
set untouched. -/
theorem commit_single_command_no_rollback (o : Operations) (w : World)
    (m : String) :
    (ranCmds (Commit o w m).trace = [["git", "commit", "-m", m]] ∨
      (cleanupOk w = false ∧ ranCmds (Commit o w m).trace = [])) ∧
    ((removedPaths (Commit o w m).trace).all
      (fun p => p == indexLockPath o || p == headLockPath o)) = true := by
  constructor
  · cases hcl : cleanupOk w
    · exact Or.inr ⟨rfl, (commit_lockfail o w m (by simp [hcl])).2⟩
    · left
      cases hx : (w.exec ["git", "commit", "-m", m]).exitOk <;>
        simp [Commit, runCommand_git, hcl, hx]
  · rw [commit_trace_eq]
    exact runCommand_removedPaths o w "git" ["commit", "-m", m]

/-- Witness for C9 at a concrete healthy world. -/
theorem commit_single_command_no_rollback_witness :
    (ranCmds (Commit op0 wAllOk "msg").trace = [["git", "commit", "-m", "msg"]] ∨
      (cleanupOk wAllOk = false ∧ ranCmds (Commit op0 wAllOk "msg").trace = [])) ∧
    ((removedPaths (Commit op0 wAllOk "msg").trace).all
      (fun p => p == indexLockPath op0 || p == headLockPath op0)) = true :=
  commit_single_command_no_rollback op0 wAllOk "msg"

/-- Claim C5: starting from a repository lacking the metadata directory,
a successful `EnsureGitSetup` runs `init` exactly once and leaves the
metadata directory in place, and a second call on the resulting state
runs no `init` at all but still re-runs the identity configuration
command. -/
theorem ensureGitSetup_idempotent_init (o : Operations) (w : World)
    (repoName : String) (hgd : w.gitDirExists = false)
    (hcl : cleanupOk w = true)
    (hok : (EnsureGitSetup o w repoName).result = .ok ()) :
    (ranCmds (EnsureGitSetup o w repoName).trace).count ["git", "init"] = 1 ∧
    (EnsureGitSetup o w repoName).world.gitDirExists = true ∧
    ["git", "init"] ∉
      ranCmds (EnsureGitSetup o (EnsureGitSetup o w repoName).world repoName).trace ∧
    ["git", "config", "--global", "user.name", w.ghUsername] ∈
      ranCmds (EnsureGitSetup o (EnsureGitSetup o w repoName).world repoName).trace := by
  cases hI : (w.exec ["git", "init"]).exitOk
  · simp [EnsureGitSetup, runCommand_git, hcl, hgd, hI] at hok
  · cases hC : (w.exec ["git", "config", "--global", "user.name",
      w.ghUsername]).exitOk
    · simp [EnsureGitSetup, configureGitUser, runCommand_git,
        hcl, hgd, hI, hC] at hok
    · cases hP : (w.exec ["git", "remote", "get-url", "origin"]).exitOk
      · cases hR : (w.exec ["git", "remote", "add", "origin",
          remoteURL w.ghUsername repoName]).exitOk
        · simp [EnsureGitSetup, configureGitUser, runCommand_git,
            hcl, hgd, hI, hC, hP, hR] at hok
        · simp [EnsureGitSetup, configureGitUser, runCommand_git,
            hcl, hgd, hI, hC, hP, hR, List.count_cons]
      · simp [EnsureGitSetup, configureGitUser, runCommand_git,
          hcl, hgd, hI, hC, hP, List.count_cons]

/-- Witness for C5 at a concrete world lacking the metadata directory. -/
theorem ensureGitSetup_idempotent_init_witness :
    ["git", "init"] ∉
      ranCmds (EnsureGitSetup op0 (EnsureGitSetup op0 wFresh "demo").world
        "demo").trace :=
  (ensureGitSetup_idempotent_init op0 wFresh "demo" (by decide) (by decide)
    (by rfl)).2.2.1

/-- Claim C7: when the probe for a remote named origin fails (the code's
test for "no origin remote exists"), `EnsureGitSetup` registers origin
with URL exactly "https://github.com/" ++ account ++ "/" ++ repoName ++
".git" built from the environment-supplied account name; when the probe
succeeds, the commands run are exactly the init (if any), the identity
configuration and the probe — no remote is added. -/
theorem ensureGitSetup_adds_origin_remote (o : Operations) (w : World)
    (repoName : String) (hcl : cleanupOk w = true)
    (hinit : w.gitDirExists = true ∨ (w.exec ["git", "init"]).exitOk = true)
    (hcfg : (w.exec ["git", "config", "--global", "user.name",
      w.ghUsername]).exitOk = true) :
    ((w.exec ["git", "remote", "get-url", "origin"]).exitOk = false →
      Event.ran "git" ["remote", "add", "origin",
        "https://github.com/" ++ w.ghUsername ++ "/" ++ repoName ++ ".git"] ∈
        (EnsureGitSetup o w repoName).trace) ∧
    ((w.exec ["git", "remote", "get-url", "origin"]).exitOk = true →
      ranCmds (EnsureGitSetup o w repoName).trace =
        (if w.gitDirExists then
          [["git", "config", "--global", "user.name", w.ghUsername],
           ["git", "remote", "get-url", "origin"]]
         else
          [["git", "init"],
           ["git", "config", "--global", "user.name", w.ghUsername],
           ["git", "remote", "get-url", "origin"]])) := by
  have hru : remoteURL w.ghUsername repoName =
      "https://github.com/" ++ w.ghUsername ++ "/" ++ repoName ++ ".git" := rfl
  constructor <;> intro hP <;> cases hgd : w.gitDirExists
  · rcases hinit with h | hI2
    · rw [hgd] at h; exact absurd h (by decide)
    · cases hR : (w.exec ["git", "remote", "add", "origin",
        "https://github.com/" ++ w.ghUsername ++ "/" ++ repoName ++ ".git"]).exitOk <;>
        simp [EnsureGitSetup, configureGitUser, runCommand_git, hru,
          hcl, hgd, hI2, hcfg, hP, hR]
  · cases hR : (w.exec ["git", "remote", "add", "origin",
      "https://github.com/" ++ w.ghUsername ++ "/" ++ repoName ++ ".git"]).exitOk <;>
      simp [EnsureGitSetup, configureGitUser, runCommand_git, hru,
        hcl, hgd, hcfg, hP, hR]
  · rcases hinit with h | hI2
    · rw [hgd] at h; exact absurd h (by decide)
    · simp [EnsureGitSetup, configureGitUser, runCommand_git,
        hcl, hgd, hI2, hcfg, hP]
  · simp [EnsureGitSetup, configureGitUser, runCommand_git,
      hcl, hgd, hcfg, hP]

/-- Witness for C7 at a concrete world with no origin remote: the
remote-add command with the constructed URL appears in the trace. -/
theorem ensureGitSetup_adds_origin_remote_witness :
    Event.ran "git" ["remote", "add", "origin",
      "https://github.com/" ++ wAllOk.ghUsername ++ "/" ++ "demo" ++ ".git"] ∈
      (EnsureGitSetup op0 wAllOk "demo").trace :=
  (ensureGitSetup_adds_origin_remote op0 wAllOk "demo" (by decide)
    (Or.inl (by decide)) (by decide)).1 (by decide)

/-- Claim C10: `EnsureGitSetup` performs no validation of the
environment-supplied account name: with GITHUB_USERNAME empty, it still
runs the identity configuration with the empty string and, when no
origin remote exists, registers the malformed URL
"https://github.com//" ++ repoName ++ ".git", succeeding rather than
failing. -/
theorem ensureGitSetup_no_username_validation (o : Operations) (w : World)
    (repoName : String) (hu : w.ghUsername = "")
    (hgd : w.gitDirExists = true) (hcl : cleanupOk w = true)
    (hcfg : (w.exec ["git", "config", "--global", "user.name", ""]).exitOk = true)
    (hprobe : (w.exec ["git", "remote", "get-url", "origin"]).exitOk = false)
    (hadd : (w.exec ["git", "remote", "add", "origin",
      "https://github.com//" ++ repoName ++ ".git"]).exitOk = true) :
    (EnsureGitSetup o w repoName).result = .ok () ∧
    Event.ran "git" ["config", "--global", "user.name", ""] ∈
      (EnsureGitSetup o w repoName).trace ∧
    Event.ran "git" ["remote", "add", "origin",
      "https://github.com//" ++ repoName ++ ".git"] ∈
      (EnsureGitSetup o w repoName).trace := by
  have hurl : remoteURL "" repoName =
      "https://github.com//" ++ repoName ++ ".git" := rfl
  simp [EnsureGitSetup, configureGitUser, runCommand_git,
    hcl, hgd, hu, hurl, hcfg, hprobe, hadd]

/-- Witness for C10 at a concrete world with an empty account name. -/
theorem ensureGitSetup_no_username_validation_witness :
    (EnsureGitSetup op0 wEmptyUser "demo").result = .ok () :=
  (ensureGitSetup_no_username_validation op0 wEmptyUser "demo" (by decide)
    (by decide) (by decide) (by decide) (by decide) (by decide)).1

end Ghquick
